import Mathlib

/-!
# Verification of `publish.py` (SpriteVC)

Shallow embedding of the SpriteVC publish script and proofs about it.
The script is a linear pipeline: argument validation, manifest version
bump, source/asset file collection, and packaging (zip or directory).

Conventions of the embedding:
* File-system paths produced by `os.walk`/`os.path.join` are modelled as
  lists of path components (`List String`); joining is list append.
  Where the source manipulates paths as raw strings (the prior-artifact
  removal, which concatenates strings), paths are plain `String`s.
* The manifest (a JSON object) is an association list from field names to
  string values; the two fields the script touches (`name`, `version`)
  are strings in the real manifest as well.
* Fallible operations (dict lookup, list indexing, version parsing)
  return `Option`; `none` corresponds to a raised Python exception.
-/

namespace SpriteVC

/-! ## Increment methods (publish.py lines 9-17) -/

/-- `method_to_index_map` literal from publish.py lines 9-15. -/
def method_to_index_map : List (String × Int) :=
  [("none", -1), ("major", 0), ("minor", 1), ("patch", 2), ("increment", 3)]

/-- `publish_modes` literal from publish.py line 17. -/
def publish_modes : List String := ["zip", "no_zip"]

/-- The keys of `method_to_index_map`, i.e. the valid increment methods. -/
def method_names : List String := method_to_index_map.map Prod.fst

/-! ## Version bump (publish.py lines 51-55) -/

/-- Sets every list element at index `≥ k` to `0`; embeds the zeroing loop
`for i in range(idx + 1, len(package_version)): package_version[i] = 0`
of publish.py lines 54-55 (called with `k = idx + 1`). -/
def zero_from : Nat → List Nat → List Nat
  | _, [] => []
  | 0, _ :: xs => 0 :: zero_from 0 xs
  | k + 1, x :: xs => x :: zero_from k xs

/-- Embeds publish.py lines 51-55: when the increment method is not
`"none"`, increment the component at the method's index and zero all
later components.  `none` models a Python `IndexError` (the component
list is too short for the method's index) or `KeyError` (unknown
method; unreachable after argument validation).  The branch is only
taken for methods other than `"none"`, whose indices are nonnegative,
so converting the mapped `Int` index with `Int.toNat` is faithful. -/
def package_version_bump (incr_method : String) (package_version : List Nat) :
    Option (List Nat) :=
  if incr_method = "none" then
    some package_version
  else
    match method_to_index_map.lookup incr_method with
    | none => none
    | some idx =>
      match package_version[idx.toNat]? with
      | none => none
      | some v => some (zero_from (idx.toNat + 1) (package_version.set idx.toNat (v + 1)))

/-! ### Helper lemmas about `zero_from` -/

theorem zero_from_eq_take_append (k : Nat) (l : List Nat) :
    zero_from k l = l.take k ++ List.replicate (l.length - k) 0 := by
  induction l generalizing k with
  | nil => simp [zero_from]
  | cons x xs ih =>
    cases k with
    | zero =>
      simp [zero_from, ih 0, List.replicate_succ]
    | succ k =>
      simp [zero_from, ih k]

example : package_version_bump "minor" [1, 2, 3] = some [1, 3, 0] := by decide

example : package_version_bump "none" [1, 2, 3] = some [1, 2, 3] := by decide

example : package_version_bump "increment" [1, 2, 3] = none := by decide

/-- **C1.** For every valid increment method `m` other than `"none"`, with
zero-based index `i` (major = 0, minor = 1, patch = 2, increment = 3), and
every parsed version component sequence of length `> i`: the bumped
sequence keeps components `0 .. i-1` (`List.take i vs`), holds `v_i + 1`
at index `i`, and is `0` at every index greater than `i`
(`List.replicate` of zeros). -/
theorem claim_C1_bump_components (m : String) (i : Nat) (vs : List Nat)
    (hne : m ≠ "none")
    (hm : method_to_index_map.lookup m = some (i : Int))
    (hi : i < vs.length) :
    package_version_bump m vs =
      some (vs.take i ++ (vs.get ⟨i, hi⟩ + 1) :: List.replicate (vs.length - (i + 1)) 0) := by
  unfold package_version_bump
  rw [if_neg hne, hm]
  have hget : vs[i]? = some (vs.get ⟨i, hi⟩) := List.getElem?_eq_getElem hi
  simp only [Int.toNat_natCast, hget]
  rw [zero_from_eq_take_append, List.set_eq_take_cons_drop _ hi]
  have hlen : (vs.take i ++ (vs.get ⟨i, hi⟩ + 1) :: vs.drop (i + 1)).length = vs.length := by
    simp
    omega
  rw [hlen]
  congr 1
  rw [List.take_append_eq_append_take, List.take_take]
  have h1 : min (i + 1) i = i := by omega
  have h2 : i + 1 - (vs.take i).length = 1 := by
    simp
    omega
  rw [h1, h2]
  simp

/-- Witness for C1 at the spec's own example: bumping `[1, 2, 3]` (version
`"1.2.3"`) with method `minor` (index 1) yields `[1, 3, 0]` (`"1.3.0"`). -/
theorem claim_C1_bump_components_witness :
    package_version_bump "minor" [1, 2, 3] = some [1, 3, 0] := by
  rw [claim_C1_bump_components "minor" 1 [1, 2, 3] (by decide) (by decide) (by decide)]
  rfl

/-- **C10.** A three-component version bumped with method `"increment"`
(index 3) runs off the end of the component list — the embedded bump hits
its error branch (`none`, a Python `IndexError`) — and in general the
bump with method `"increment"` succeeds exactly when the version has at
least four components. -/
theorem claim_C10_increment_out_of_range (vs : List Nat) :
    package_version_bump "increment" [1, 2, 3] = none ∧
      ((package_version_bump "increment" vs).isSome ↔ 4 ≤ vs.length) := by
  constructor
  · decide
  · unfold package_version_bump
    rw [if_neg (by decide : ("increment" : String) ≠ "none")]
    rw [show method_to_index_map.lookup "increment" = some 3 from by decide]
    simp only [show ((3 : Int)).toNat = 3 from rfl]
    cases h : vs[3]? with
    | none =>
      have hlen := List.getElem?_eq_none_iff.mp h
      simp [h]
      omega
    | some v =>
      have hlen : 3 < vs.length := (List.getElem?_eq_some.mp h).1
      simp [h]
      omega

/-! ## Version strings (publish.py lines 47 and 61)

`version.parse(s).release` on a well-formed dotted decimal string yields
the tuple of its integer components; `str(version.Version('.'.join(...)))`
on a dotted decimal built from integers is that dotted decimal itself.
The parse is embedded at character level so that it is kernel-executable. -/

/-- Splits a character list at every occurrence of `sep` (kernel-executable
counterpart of Python's `str.split(sep)` for a one-character separator). -/
def split_on_char (sep : Char) : List Char → List (List Char)
  | [] => [[]]
  | c :: cs =>
    if c = sep then [] :: split_on_char sep cs
    else
      match split_on_char sep cs with
      | [] => [[c]]
      | g :: gs => (c :: g) :: gs

/-- Splits a character list at every `'.'`; embeds the component split of
`version.parse` for dotted version strings. -/
def split_dots (cs : List Char) : List (List Char) := split_on_char '.' cs

/-- Reads a nonempty all-digit character group as a natural number;
`none` on an empty or non-numeric group (Python `InvalidVersion`). -/
def digits_toNat? (cs : List Char) : Option Nat :=
  if cs ≠ [] ∧ cs.all (fun c => c.isDigit) then
    some (cs.foldl (fun n c => 10 * n + (c.toNat - 48)) 0)
  else none

/-- Embeds `list(version.parse(package["version"]).release)` of publish.py
line 47, restricted to well-formed dotted decimal version strings: the
release components are the dot-separated integers.  `none` models the
`InvalidVersion` exception on a malformed string. -/
def parse_release (s : String) : Option (List Nat) :=
  (split_dots s.data).mapM digits_toNat?

/-- Embeds `str(version.Version('.'.join([str(n) for n in package_version])))`
of publish.py line 61: a dotted decimal built from integer components is
already in canonical form, so `version.Version` re-serializes it as is. -/
def serialize_version (package_version : List Nat) : String :=
  String.intercalate "." (package_version.map toString)

example : parse_release "1.2.3" = some [1, 2, 3] := by decide

example : parse_release "1.2.x" = none := by decide

example : serialize_version [1, 3, 0] = "1.3.0" := by decide

/-! ## The manifest (publish.py lines 40-67) -/

/-- The manifest (`package.json`), modelled as an association list from
field names to string values.  The real manifest is a JSON object whose
two fields used by the script (`name`, `version`) are strings. -/
abbrev Manifest := List (String × String)

/-- Embeds the dict assignment `package["version"] = ...` of publish.py
line 61 (for a key already present, as guaranteed by the preceding read
of `package["version"]`). -/
def set_field (package : Manifest) (key value : String) : Manifest :=
  package.map (fun kv => if kv.1 = key then (key, value) else kv)

/-- Embeds the version-bump stage, publish.py lines 40-67: read
`package["name"]` and `package["version"]`, parse the version, bump it
according to `incr_method`, and write the re-serialized version back into
the manifest.  `none` models any raised exception (`KeyError`,
`InvalidVersion`, `IndexError`), in which case line 67's `json.dump`
never runs and the manifest file keeps its old contents. -/
def bump_manifest (incr_method : String) (package : Manifest) : Option Manifest :=
  match package.lookup "name" with
  | none => none
  | some _ =>
    match package.lookup "version" with
    | none => none
    | some vstr =>
      match parse_release vstr with
      | none => none
      | some vs =>
        match package_version_bump incr_method vs with
        | none => none
        | some ws => some (set_field package "version" (serialize_version ws))

example :
    bump_manifest "minor" [("name", "ext"), ("version", "1.2.3")] =
      some [("name", "ext"), ("version", "1.3.0")] := by decide

/-! ### Lookup lemmas for `set_field` -/

theorem lookup_set_field_ne (package : Manifest) (key value k : String)
    (hk : k ≠ key) :
    (set_field package key value).lookup k = package.lookup k := by
  induction package with
  | nil => rfl
  | cons kv rest ih =>
    obtain ⟨k1, v1⟩ := kv
    show List.lookup k ((if k1 = key then (key, value) else (k1, v1)) :: set_field rest key value)
        = List.lookup k ((k1, v1) :: rest)
    by_cases h1 : k1 = key
    · rw [if_pos h1, List.lookup_cons, List.lookup_cons]
      subst h1
      have hb : (k == k1) = false := beq_false_of_ne hk
      rw [hb]
      exact ih
    · rw [if_neg h1, List.lookup_cons, List.lookup_cons]
      cases hb : (k == k1) with
      | true => rfl
      | false => exact ih

theorem lookup_set_field_self (package : Manifest) (key value : String)
    (h : (package.lookup key).isSome) :
    (set_field package key value).lookup key = some value := by
  induction package with
  | nil => simp [List.lookup] at h
  | cons kv rest ih =>
    obtain ⟨k1, v1⟩ := kv
    show List.lookup key ((if k1 = key then (key, value) else (k1, v1)) :: set_field rest key value)
        = some value
    by_cases h1 : k1 = key
    · rw [if_pos h1, List.lookup_cons]
      have hb : (key == key) = true := beq_self_eq_true key
      rw [hb]
    · have hb : (key == k1) = false := beq_false_of_ne (fun h2 => h1 h2.symm)
      rw [if_neg h1, List.lookup_cons, hb]
      apply ih
      rw [List.lookup_cons, hb] at h
      exact h

/-- **C5.** With increment method `"none"` the component sequence is
untouched — no component is altered, added, or dropped — and the version
field is written back as the plain re-serialization of exactly the parsed
component sequence; every other field keeps its value. -/
theorem claim_C5_none_round_trip (package : Manifest) (nm vstr : String) (vs : List Nat)
    (hn : package.lookup "name" = some nm)
    (hv : package.lookup "version" = some vstr)
    (hp : parse_release vstr = some vs) :
    package_version_bump "none" vs = some vs ∧
      bump_manifest "none" package =
        some (set_field package "version" (serialize_version vs)) ∧
      (set_field package "version" (serialize_version vs)).lookup "version" =
        some (serialize_version vs) := by
  refine ⟨rfl, ?_, ?_⟩
  · unfold bump_manifest
    simp only [hn, hv, hp]
    rfl
  · exact lookup_set_field_self package "version" (serialize_version vs) (by rw [hv]; rfl)

/-- Witness for C5: the manifest `{name: "ext", version: "1.2.3"}` under
method `"none"` keeps components `[1, 2, 3]` and gets version `"1.2.3"`
written back. -/
theorem claim_C5_none_round_trip_witness :
    package_version_bump "none" [1, 2, 3] = some [1, 2, 3] ∧
      bump_manifest "none" [("name", "ext"), ("version", "1.2.3")] =
        some [("name", "ext"), ("version", "1.2.3")] := by
  have h := claim_C5_none_round_trip [("name", "ext"), ("version", "1.2.3")]
    "ext" "1.2.3" [1, 2, 3] (by decide) (by decide) (by decide)
  exact ⟨h.1, by rw [h.2.1]; decide⟩

/-- **C9.** The version bump is frame-preserving: whenever it rewrites the
manifest, every field other than `"version"` (in particular `"name"`)
keeps exactly the value it had before; only the version field may change. -/
theorem claim_C9_only_version_changes (package package2 : Manifest)
    (m k : String) (hk : k ≠ "version")
    (h : bump_manifest m package = some package2) :
    package2.lookup k = package.lookup k := by
  unfold bump_manifest at h
  cases hn : package.lookup "name" with
  | none => simp only [hn] at h; exact Option.noConfusion h
  | some nm =>
    simp only [hn] at h
    cases hv : package.lookup "version" with
    | none => simp only [hv] at h; exact Option.noConfusion h
    | some vstr =>
      simp only [hv] at h
      cases hp : parse_release vstr with
      | none => simp only [hp] at h; exact Option.noConfusion h
      | some vs =>
        simp only [hp] at h
        cases hb : package_version_bump m vs with
        | none => simp only [hb] at h; exact Option.noConfusion h
        | some ws =>
          simp only [hb, Option.some.injEq] at h
          rw [← h]
          exact lookup_set_field_ne package "version" (serialize_version ws) k hk

/-- Witness for C9: bumping `{name: "ext", version: "1.2.3"}` with method
`minor` leaves the `name` field intact. -/
theorem claim_C9_only_version_changes_witness :
    ([("name", "ext"), ("version", "1.3.0")] : Manifest).lookup "name" =
      ([("name", "ext"), ("version", "1.2.3")] : Manifest).lookup "name" :=
  claim_C9_only_version_changes [("name", "ext"), ("version", "1.2.3")]
    [("name", "ext"), ("version", "1.3.0")] "minor" "name" (by decide) (by decide)

/-! ## Top-level control flow (publish.py lines 21-67)

`run_main` embeds the script's validation and version-bump stages.
`argv` is the full `sys.argv`, program name included (so a correct
invocation has length 5).  The observable outcome records the exit
code (`-1` for an `exit(-1)` during validation, `1` for an uncaught
exception, `0` for a completed run), the final contents of the manifest
file, whether the invalid-publish-mode diagnostic of lines 29-31 was
printed, whether the version bump ran, and whether one of the two
packaging branches (lines 107-147) was taken. -/

/-- Embeds Python's `str.lower()` (character-wise lowercasing), written at
character level so that it is kernel-executable. -/
def str_lower (s : String) : String := String.mk (s.data.map Char.toLower)

structure MainOutcome where
  exitCode : Int
  finalManifest : Manifest
  invalidModeDiagnostic : Bool
  versionBumpPerformed : Bool
  packagingBranchTaken : Bool
deriving DecidableEq, Repr

/-- Embeds publish.py lines 21-67: the two validation checks that call
`exit(-1)` (argument count, increment method), the publish-mode check
that only prints (lines 29-31 have no `exit` call), and the version-bump
block.  The packaging stage's branch condition (lines 107 and 127) is
recorded as `packagingBranchTaken`. -/
def run_main (argv : List String) (package : Manifest) : MainOutcome :=
  if argv.length ≠ 5 then
    { exitCode := -1, finalManifest := package, invalidModeDiagnostic := false,
      versionBumpPerformed := false, packagingBranchTaken := false }
  else if method_names.contains (str_lower (argv.getD 2 "")) = false then
    { exitCode := -1, finalManifest := package, invalidModeDiagnostic := false,
      versionBumpPerformed := false, packagingBranchTaken := false }
  else
    let incr_method := str_lower (argv.getD 2 "")
    let publish_method := str_lower (argv.getD 3 "")
    let diag := !(publish_modes.contains publish_method)
    match bump_manifest incr_method package with
    | none =>
      { exitCode := 1, finalManifest := package, invalidModeDiagnostic := diag,
        versionBumpPerformed := false, packagingBranchTaken := false }
    | some package2 =>
      { exitCode := 0, finalManifest := package2, invalidModeDiagnostic := diag,
        versionBumpPerformed := true,
        packagingBranchTaken := publish_modes.contains publish_method }

/-- **C3 (code bug).** With publish mode `"bogus"` (not in
`{zip, no_zip}`) the script prints the diagnostic of line 30 but does
NOT terminate: lines 29-31 lack the `exit(-1)` present in the two
preceding checks.  The run continues, performs the version bump, skips
both packaging branches, and exits 0 — contradicting the claim that an
invalid publish mode terminates the process before any bump. -/
theorem claim_C3_invalid_mode_does_not_exit :
    run_main ["publish.py", "*", "minor", "bogus", "out"]
        [("name", "ext"), ("version", "1.2.3")] =
      { exitCode := 0, finalManifest := [("name", "ext"), ("version", "1.3.0")],
        invalidModeDiagnostic := true, versionBumpPerformed := true,
        packagingBranchTaken := false } := by
  decide

/-- **C7.** A wrong argument count or an increment method outside the
valid enumeration makes the script exit with the non-zero code `-1`
before the manifest block of lines 40-67 runs: the manifest file keeps
its exact prior contents and no bump is performed. -/
theorem claim_C7_invalid_args_leave_manifest (argv : List String) (package : Manifest)
    (h : argv.length ≠ 5 ∨
      method_names.contains (str_lower (argv.getD 2 "")) = false) :
    (run_main argv package).exitCode = -1 ∧
      (run_main argv package).finalManifest = package ∧
      (run_main argv package).versionBumpPerformed = false := by
  by_cases h5 : argv.length = 5
  · have hm : method_names.contains (str_lower (argv.getD 2 "")) = false := by
      rcases h with h | h
      · exact absurd h5 h
      · exact h
    rw [run_main, if_neg (by omega), if_pos hm]
    exact ⟨rfl, rfl, rfl⟩
  · rw [run_main, if_pos (by omega)]
    exact ⟨rfl, rfl, rfl⟩

/-- Witness for C7: the invocation `publish.py * bogus zip out` (invalid
increment method) exits with code `-1` and leaves the manifest
`{name: "ext", version: "1.2.3"}` untouched. -/
theorem claim_C7_invalid_args_leave_manifest_witness :
    (run_main ["publish.py", "*", "bogus", "zip", "out"]
        [("name", "ext"), ("version", "1.2.3")]).exitCode = -1 ∧
      (run_main ["publish.py", "*", "bogus", "zip", "out"]
          [("name", "ext"), ("version", "1.2.3")]).finalManifest =
        [("name", "ext"), ("version", "1.2.3")] ∧
      (run_main ["publish.py", "*", "bogus", "zip", "out"]
          [("name", "ext"), ("version", "1.2.3")]).versionBumpPerformed = false :=
  claim_C7_invalid_args_leave_manifest ["publish.py", "*", "bogus", "zip", "out"]
    [("name", "ext"), ("version", "1.2.3")] (Or.inr (by decide))

/-! ## Source file collection (publish.py lines 73-95)

A file-system snapshot is a finite tree; `os.walk` is embedded as the
top-down walk yielding, for each directory, its path (as components,
mirroring `root.split(os.path.sep)`) and the names of the plain files
directly inside it, in tree order. -/

/-- A directory tree: leaves are plain files, inner nodes directories
with an ordered child list (the order `os.walk` enumerates them in). -/
inductive FTree where
  | file (name : String)
  | dir (name : String) (children : List FTree)

/-- Embeds Python's `str.endswith` at character level (so that it is
kernel-executable): `s` ends with `suffix` iff `suffix`'s characters are
a suffix of `s`'s. -/
def str_endsWith (s suffix : String) : Bool :=
  suffix.data.isSuffixOf s.data

example : str_endsWith "foo.lua" ".lua" = true := by decide

example : str_endsWith "bar.png" ".lua" = false := by decide

/-- The names of the plain files directly inside a child list. -/
def file_names (children : List FTree) : List String :=
  children.filterMap (fun c =>
    match c with
    | .file f => some f
    | .dir _ _ => none)

mutual

/-- Embeds `os.walk` (top-down): yields `(root path components, file
names)` for the tree's root directory, then recursively for every child
directory in order.  Walking a plain file yields nothing. -/
def FTree.walk (path : List String) : FTree → List (List String × List String)
  | .file _ => []
  | .dir name children =>
    (path ++ [name], file_names children) :: FTree.walk_children (path ++ [name]) children

/-- Walks each child in order, concatenating the results. -/
def FTree.walk_children (path : List String) : List FTree → List (List String × List String)
  | [] => []
  | t :: ts => FTree.walk path t ++ FTree.walk_children path ts

end

/-- Embeds the source-collection loop of publish.py lines 75-88: for every
walked directory, `folders = root.split(os.path.sep)[1:]` drops the
`"src"` component; a directory with `len(folders) > 0` whose component
list does not contain `sys.argv[1]` is skipped (`continue` — note this
skips only that directory's own files, `os.walk` still descends into its
subdirectories); of the remaining files those ending in `".lua"` are
appended as `os.path.join(root, file)`. -/
def collect_source_files (cfg : String) (t : FTree) : List (List String) :=
  (FTree.walk [] t).flatMap (fun rf =>
    let folders := rf.1.drop 1
    if folders ≠ [] ∧ ¬ cfg ∈ folders then []
    else (rf.2.filter (fun f => str_endsWith f ".lua")).map (fun f => rf.1 ++ [f]))

/-- `package_json_location` of publish.py line 19 (`"src/package.json"`),
as path components. -/
def package_json_location : List String := ["src", "package.json"]

/-- Embeds publish.py lines 73-88: the flat-file list starts with the
manifest path and continues with the collected source files. -/
def source_files_list (cfg : String) (t : FTree) : List (List String) :=
  package_json_location :: collect_source_files cfg t

/-- The example tree `src/{root.lua, A/foo.lua, B/bar.lua}`. -/
def exampleSrcTree : FTree :=
  .dir "src" [.file "root.lua", .dir "A" [.file "foo.lua"], .dir "B" [.file "bar.lua"]]

example :
    source_files_list "A" exampleSrcTree =
      [["src", "package.json"], ["src", "root.lua"], ["src", "A", "foo.lua"]] := by decide

/-- Membership in the collected source-file list, characterized over the
walk: a path is collected iff it is `root ++ [f]` for a walked directory
`root` whose relative component list (`root` minus the leading `"src"`)
is empty or contains the category filter, and a file `f` of that
directory ending in `".lua"`. -/
theorem mem_collect_source_files (cfg : String) (t : FTree) (p : List String) :
    p ∈ collect_source_files cfg t ↔
      ∃ root files f, (root, files) ∈ FTree.walk [] t ∧
        (root.drop 1 = [] ∨ cfg ∈ root.drop 1) ∧
        f ∈ files ∧ str_endsWith f ".lua" = true ∧ p = root ++ [f] := by
  unfold collect_source_files
  rw [List.mem_flatMap]
  constructor
  · rintro ⟨rf, hrf, hp⟩
    by_cases hc : rf.1.drop 1 ≠ [] ∧ ¬ cfg ∈ rf.1.drop 1
    · rw [if_pos hc] at hp
      cases hp
    · rw [if_neg hc] at hp
      rw [List.mem_map] at hp
      obtain ⟨f, hf, hpf⟩ := hp
      rw [List.mem_filter] at hf
      refine ⟨rf.1, rf.2, f, hrf, ?_, hf.1, hf.2, hpf.symm⟩
      by_cases he : rf.1.drop 1 = []
      · exact Or.inl he
      · right
        by_contra hni
        exact hc ⟨he, hni⟩
  · rintro ⟨root, files, f, hrf, hor, hf, hlua, hp⟩
    refine ⟨(root, files), hrf, ?_⟩
    have hc : ¬ (root.drop 1 ≠ [] ∧ ¬ cfg ∈ root.drop 1) := by
      rcases hor with h | h
      · intro hc
        exact hc.1 h
      · intro hc
        exact hc.2 h
    rw [if_neg hc, List.mem_map]
    exact ⟨f, List.mem_filter.mpr ⟨hf, hlua⟩, hp.symm⟩

/-- **C2 (counterexample).** The claim says a non-matching first-level
subdirectory *and everything beneath it* is skipped entirely.  It is not:
for the tree `src/B/A/foo.lua` and filter `"A"`, the file lies beneath
the first-level subdirectory `"B"` (which differs from the filter), yet
it IS collected, because line 80's test `sys.argv[1] in folders` accepts
any directory whose relative path contains the filter anywhere, and
`continue` does not stop `os.walk` from descending. -/
theorem claim_C2_counterexample :
    ["src", "B", "A", "foo.lua"] ∈
        collect_source_files "A" (.dir "src" [.dir "B" [.dir "A" [.file "foo.lua"]]]) ∧
      "B" ≠ "A" := by
  constructor
  · decide
  · decide

/-- **C2 (amended).** A walked directory's `.lua` files are collected iff
the directory is the source root itself (`folders = root.drop 1 = []`,
so files directly at the source root are included regardless of the
filter) or the category filter occurs among the directory's relative
path components.  For a file directly inside a first-level subdirectory
this means: included iff that subdirectory's name equals the filter; but
a deeper directory beneath a non-matching first-level subdirectory is
still collected whenever any component of its relative path equals the
filter. -/
theorem claim_C2_category_filter (cfg : String) (t : FTree) (p : List String) :
    p ∈ collect_source_files cfg t ↔
      ∃ root files f, (root, files) ∈ FTree.walk [] t ∧
        (root.drop 1 = [] ∨ cfg ∈ root.drop 1) ∧
        f ∈ files ∧ str_endsWith f ".lua" = true ∧ p = root ++ [f] :=
  mem_collect_source_files cfg t p

/-- **C8.** The flat-file list begins with the manifest path
`src/package.json`; every later element is a file whose name ends in
`.lua`; and on the source tree `src/{root.lua, A/foo.lua, B/bar.lua}`
with category filter `A`, in walk order, the list is exactly
`[manifest, src/root.lua, src/A/foo.lua]` — `bar.lua` never appears. -/
theorem claim_C8_flat_file_list (cfg : String) (t : FTree) (p : List String)
    (hp : p ∈ (source_files_list cfg t).drop 1) :
    (source_files_list cfg t).head? = some package_json_location ∧
      (∃ f, p.getLast? = some f ∧ str_endsWith f ".lua" = true) ∧
      source_files_list "A" exampleSrcTree =
        [package_json_location, ["src", "root.lua"], ["src", "A", "foo.lua"]] ∧
      ["src", "B", "bar.lua"] ∉ source_files_list "A" exampleSrcTree := by
  refine ⟨rfl, ?_, by decide, by decide⟩
  rw [show (source_files_list cfg t).drop 1 = collect_source_files cfg t from rfl] at hp
  obtain ⟨root, files, f, _, _, _, hlua, hpe⟩ := (mem_collect_source_files cfg t p).mp hp
  subst hpe
  exact ⟨f, by simp, hlua⟩

/-- Witness for C8 at the claim's own example: the element
`["src", "A", "foo.lua"]` of the tail of the flat-file list for
`src/{root.lua, A/foo.lua, B/bar.lua}` with filter `A`. -/
theorem claim_C8_flat_file_list_witness :
    (source_files_list "A" exampleSrcTree).head? = some package_json_location ∧
      (∃ f, (["src", "A", "foo.lua"] : List String).getLast? = some f ∧
        str_endsWith f ".lua" = true) ∧
      source_files_list "A" exampleSrcTree =
        [package_json_location, ["src", "root.lua"], ["src", "A", "foo.lua"]] ∧
      ["src", "B", "bar.lua"] ∉ source_files_list "A" exampleSrcTree :=
  claim_C8_flat_file_list "A" exampleSrcTree ["src", "A", "foo.lua"] (by decide)

/-! ## Packaging entries (publish.py lines 107-147)

Both writers iterate the flat-file list and then the asset-file list, in
list order.  Each produced entry is recorded as a pair
`(source path, output path)`, with paths as components. -/

/-- Embeds `os.path.basename`: the last path component. -/
def basename (p : List String) : String := p.getLastD ""

/-- Embeds the zip writer, publish.py lines 111-125: each flat file is
written under `os.path.basename(file)` as its archive-internal path
(line 118), each asset file under `file` itself, i.e. its walk path with
directory structure preserved (line 125); source entries first, then
asset entries, each in list order. -/
def zip_entries (source_files asset_files : List (List String)) :
    List (List String × List String) :=
  source_files.map (fun file => (file, [basename file])) ++
    asset_files.map (fun file => (file, file))

/-- Embeds the directory-mode writer, publish.py lines 131-147: each flat
file is copied to `os.path.join(destination_path, os.path.basename(file))`
(line 134), each asset file to `os.path.join(destination_path, file)`
(line 143); source entries first, then asset entries, each in list
order. -/
def no_zip_copies (destination_path : List String)
    (source_files asset_files : List (List String)) :
    List (List String × List String) :=
  source_files.map (fun file => (file, destination_path ++ [basename file])) ++
    asset_files.map (fun file => (file, destination_path ++ file))

/-- **C6.** In both output modes, the `i`-th flat file is stored under
only its base name (directory structure discarded; under the destination
directory in directory mode) and the `j`-th asset file is stored at a
path preserving its directory structure, at entry positions `i` and
`source_files.length + j` respectively — i.e. entries appear in the same
order as the corresponding file lists.  E.g. asset
`assets/icons/x.png` appears at archive path `assets/icons/x.png` and at
directory path `<dest>/<name>/assets/icons/x.png`. -/
theorem claim_C6_entry_paths (source_files asset_files : List (List String))
    (destination_path : List String) (i j : Nat) (f a : List String)
    (hf : source_files[i]? = some f) (ha : asset_files[j]? = some a) :
    (zip_entries source_files asset_files)[i]? = some (f, [basename f]) ∧
      (zip_entries source_files asset_files)[source_files.length + j]? =
        some (a, a) ∧
      (no_zip_copies destination_path source_files asset_files)[i]? =
        some (f, destination_path ++ [basename f]) ∧
      (no_zip_copies destination_path source_files asset_files)[source_files.length + j]? =
        some (a, destination_path ++ a) := by
  have hi : i < source_files.length := (List.getElem?_eq_some.mp hf).1
  refine ⟨?_, ?_, ?_, ?_⟩
  · rw [zip_entries, List.getElem?_append, if_pos (by simpa using hi),
      List.getElem?_map, hf]
    rfl
  · rw [zip_entries, List.getElem?_append, if_neg (by simp), List.length_map,
      Nat.add_sub_cancel_left, List.getElem?_map, ha]
    rfl
  · rw [no_zip_copies, List.getElem?_append, if_pos (by simpa using hi),
      List.getElem?_map, hf]
    rfl
  · rw [no_zip_copies, List.getElem?_append, if_neg (by simp), List.length_map,
      Nat.add_sub_cancel_left, List.getElem?_map, ha]
    rfl

/-- Witness for C6 at the claim's own example: flat file
`src/package.json` and asset `assets/icons/x.png`, with destination
directory `dest/ext`: the asset's archive entry is at
`assets/icons/x.png` and its directory-mode copy at
`dest/ext/assets/icons/x.png`; the flat file is stored as
`package.json` / `dest/ext/package.json`. -/
theorem claim_C6_entry_paths_witness :
    (zip_entries [["src", "package.json"]] [["assets", "icons", "x.png"]])[0]? =
        some (["src", "package.json"], ["package.json"]) ∧
      (zip_entries [["src", "package.json"]] [["assets", "icons", "x.png"]])[1]? =
        some (["assets", "icons", "x.png"], ["assets", "icons", "x.png"]) ∧
      (no_zip_copies ["dest", "ext"] [["src", "package.json"]]
          [["assets", "icons", "x.png"]])[0]? =
        some (["src", "package.json"], ["dest", "ext", "package.json"]) ∧
      (no_zip_copies ["dest", "ext"] [["src", "package.json"]]
          [["assets", "icons", "x.png"]])[1]? =
        some (["assets", "icons", "x.png"], ["dest", "ext", "assets", "icons", "x.png"]) :=
  claim_C6_entry_paths [["src", "package.json"]] [["assets", "icons", "x.png"]]
    ["dest", "ext"] 0 0 ["src", "package.json"] ["assets", "icons", "x.png"]
    (by decide) (by decide)

/-! ## Prior-artifact removal and replacement (publish.py lines 97-147)

For this part the path arithmetic of the source is on raw strings
(`publish_location + extension_name` is plain concatenation on line 99,
`os.path.join` on line 105), so the file system is modelled as the set
of existing file paths, as plain strings. -/

/-- String prefix test at character level (kernel-executable). -/
def str_isPrefixOf (p q : String) : Bool := p.data.isPrefixOf q.data

/-- Embeds `os.path.join` for relative POSIX path strings. -/
def os_path_join (a b : String) : String :=
  if a = "" then b
  else if str_endsWith a "/" then a ++ b
  else a ++ "/" ++ b

/-- Embeds `os.path.basename`: the part after the last `'/'`. -/
def string_basename (p : String) : String :=
  String.mk ((split_on_char '/' p.data).getLastD [])

example : os_path_join "out" "ext" = "out/ext" := by decide

example : string_basename "src/A/foo.lua" = "foo.lua" := by decide

/-- A file-system snapshot for the packaging stage: the list of existing
file paths (directories are implicit as prefixes). -/
abbrev FS := List String

/-- Embeds publish.py lines 99-100:
`if os.path.isfile(publish_location + extension_name): os.remove(...)`.
Note the operand is PLAIN STRING CONCATENATION — no path separator and no
`.aseprite-extension` suffix. -/
def remove_prior_artifact (fs : FS) (publish_location extension_name : String) : FS :=
  if fs.contains (publish_location ++ extension_name) then
    fs.filter (fun q => q ≠ publish_location ++ extension_name)
  else fs

/-- Embeds `rmtree(destination_path, ignore_errors=True)` of publish.py
line 129: every file below the directory is removed. -/
def rmtree_fs (fs : FS) (dir : String) : FS :=
  fs.filter (fun q => !(str_isPrefixOf (dir ++ "/") q))

/-- Creates (or overwrites) a file at path `p`. -/
def fs_add (fs : FS) (p : String) : FS :=
  if fs.contains p then fs else p :: fs

/-- The destination paths of the directory-mode copies, publish.py
lines 131-147: flat files under their base name, asset files at their
relative path, all beneath `destination_path`. -/
def no_zip_dest_files (destination_path : String)
    (source_files asset_files : List String) : List String :=
  source_files.map (fun file => os_path_join destination_path (string_basename file)) ++
    asset_files.map (fun file => os_path_join destination_path file)

/-- Embeds the archive-mode file-system effect, publish.py lines 97-111:
prior-artifact removal (lines 99-100), then `ZipFile(destination_path, 'w')`
creates or truncates the file at
`os.path.join(publish_location, extension_name) + ".aseprite-extension"`.
Returns the final snapshot and the artifact path. -/
def run_zip_fs (fs : FS) (publish_location extension_name : String) : FS × String :=
  let fs1 := remove_prior_artifact fs publish_location extension_name
  let destination_path := os_path_join publish_location extension_name ++ ".aseprite-extension"
  (fs_add fs1 destination_path, destination_path)

/-- Embeds the directory-mode file-system effect, publish.py lines 97-105
and 127-147: prior-artifact removal, recursive `rmtree` of the
destination directory, then every flat and asset file copied beneath it.
Returns the final snapshot and the destination directory path. -/
def run_no_zip_fs (fs : FS) (publish_location extension_name : String)
    (source_files asset_files : List String) : FS × String :=
  let fs1 := remove_prior_artifact fs publish_location extension_name
  let destination_path := os_path_join publish_location extension_name
  let fs2 := rmtree_fs fs1 destination_path
  ((no_zip_dest_files destination_path source_files asset_files).foldl fs_add fs2,
    destination_path)

/-! ### Membership lemmas for the snapshot operations -/

theorem mem_fs_add (fs : FS) (x q : String) : q ∈ fs_add fs x ↔ q ∈ fs ∨ q = x := by
  unfold fs_add
  by_cases hx : fs.contains x
  · rw [if_pos hx]
    constructor
    · exact Or.inl
    · rintro (h | h)
      · exact h
      · subst h
        exact List.mem_of_elem_eq_true hx
  · rw [if_neg hx]
    rw [List.mem_cons]
    tauto

theorem mem_foldl_fs_add (fs : FS) (l : List String) (q : String) :
    q ∈ l.foldl fs_add fs ↔ q ∈ fs ∨ q ∈ l := by
  induction l generalizing fs with
  | nil => simp
  | cons x xs ih =>
    rw [List.foldl_cons, ih, mem_fs_add, List.mem_cons]
    tauto

/-- **C4 (counterexample).** With destination root `"out"` and artifact
name `"ext"`, a pre-existing archive-mode artifact sits at the resolved
output path `"out/ext.aseprite-extension"`; the claim says it is removed
(file removal) before writing.  The removal step of lines 99-100 instead
tests the concatenation `"outext"` and leaves the artifact in place. -/
theorem claim_C4_counterexample :
    (run_zip_fs ["out/ext.aseprite-extension"] "out" "ext").2 =
        "out/ext.aseprite-extension" ∧
      remove_prior_artifact ["out/ext.aseprite-extension"] "out" "ext" =
        ["out/ext.aseprite-extension"] := by
  constructor
  · decide
  · decide

/-- **C4 (amended).** In archive mode the explicit removal step checks
`publish_location + extension_name` (plain concatenation, without
separator or `.aseprite-extension` suffix) and so in general does not
remove the pre-existing archive; the archive is nevertheless fully
replaced because `ZipFile(..., 'w')` truncates it, so after a successful
run the artifact exists at the destination path.  In directory mode the
destination directory is recursively removed before copying, so every
file below the destination path after the run is one of this run's
copies (no stale entries survive), and all copies are present. -/
theorem claim_C4_artifact_replacement (fs : FS)
    (publish_location extension_name : String)
    (source_files asset_files : List String) (q : String) :
    (run_zip_fs fs publish_location extension_name).2 ∈
        (run_zip_fs fs publish_location extension_name).1 ∧
      (q ∈ (run_no_zip_fs fs publish_location extension_name source_files asset_files).1 →
        str_isPrefixOf
            ((run_no_zip_fs fs publish_location extension_name source_files asset_files).2
              ++ "/") q = true →
        q ∈ no_zip_dest_files (os_path_join publish_location extension_name)
              source_files asset_files) ∧
      (q ∈ no_zip_dest_files (os_path_join publish_location extension_name)
            source_files asset_files →
        q ∈ (run_no_zip_fs fs publish_location extension_name source_files asset_files).1) := by
  refine ⟨?_, ?_, ?_⟩
  · exact (mem_fs_add _ _ _).mpr (Or.inr rfl)
  · intro hq hpre
    rcases (mem_foldl_fs_add _ _ _).mp hq with hq2 | hq2
    · exfalso
      have hkeep := (List.mem_filter.mp hq2).2
      have hpre2 : str_isPrefixOf
          (os_path_join publish_location extension_name ++ "/") q = true := hpre
      rw [hpre2] at hkeep
      exact Bool.noConfusion hkeep
    · exact hq2
  · intro hq
    exact (mem_foldl_fs_add _ _ _).mpr (Or.inr hq)

/-- Witness for C4 (amended): destination root `"out"`, name `"ext"`,
one asset `assets/x.png`, and a stale file `out/ext/stale.lua` from a
previous run.  The zip artifact `out/ext.aseprite-extension` exists after
the archive run; in directory mode the file `out/ext/assets/x.png` lies
below the destination and is one of this run's copies, and the copy is
present in the final snapshot. -/
theorem claim_C4_artifact_replacement_witness :
    (run_zip_fs ["out/ext/stale.lua"] "out" "ext").2 ∈
        (run_zip_fs ["out/ext/stale.lua"] "out" "ext").1 ∧
      "out/ext/assets/x.png" ∈ no_zip_dest_files (os_path_join "out" "ext")
          [] ["assets/x.png"] ∧
      "out/ext/assets/x.png" ∈
        (run_no_zip_fs ["out/ext/stale.lua"] "out" "ext" [] ["assets/x.png"]).1 := by
  have h := claim_C4_artifact_replacement ["out/ext/stale.lua"] "out" "ext"
    [] ["assets/x.png"] "out/ext/assets/x.png"
  exact ⟨h.1, h.2.1 (by decide) (by decide), h.2.2 (by decide)⟩
